import Mathlib

/-!
Shallow embedding of the ramp-test validator
(`modules/calculations/test_validator.py`) of the Analiza_Kolarska
repository, together with theorems settling the specification claims.

Modelling conventions:
* Machine floats are modelled by exact rationals (`ℚ`); the only genuinely
  irrational computation, `np.std` (a square root), is modelled in `ℝ`.
* Numeric cells of the input table are rationals (no NaN cells); the
  cadence column's `dropna()` is therefore the identity in this model.
* Python strings are modelled by Lean `String`; `str.lower` / `str.strip`
  are modelled for the ASCII range used by the repository's column names.
* Human-readable strings produced with f-string formatting are modelled by
  inductive message/display values carrying the unformatted payloads, so
  that no information is lost while the (presentation-only) decimal
  formatting is not re-implemented.
-/

/-! ### Python string primitives (`str.lower`, `str.strip`) -/

/-- Model of CPython `str.lower` on a single character, for the ASCII
range (the repository's column names are ASCII). -/
def pyCharLower (c : Char) : Char :=
  if 65 ≤ c.toNat ∧ c.toNat ≤ 90 then Char.ofNat (c.toNat + 32) else c

/-- Model of CPython `str.lower`. -/
def pyLower (s : String) : String := ⟨s.data.map pyCharLower⟩

/-- The ASCII whitespace characters stripped by `str.strip()`. -/
def pyIsSpace (c : Char) : Bool :=
  c = ' ' ∨ c = '\t' ∨ c = '\n' ∨ c = '\r' ∨ c = '\x0b' ∨ c = '\x0c'

/-- `str.strip()` on a character list: drop leading whitespace, then
trailing whitespace (`List.rdropWhile p l` is
`(l.reverse.dropWhile p).reverse`). -/
def pyStripList (l : List Char) : List Char :=
  List.rdropWhile pyIsSpace (l.dropWhile pyIsSpace)

/-- Model of CPython `str.strip()`. -/
def pyStrip (s : String) : String := ⟨pyStripList s.data⟩

/-- The normalization `df.columns.str.lower().str.strip()` applies to every
column label of the input table. -/
def normName (s : String) : String := pyStrip (pyLower s)

/-! ### The input table (`pd.DataFrame`) -/

/-- Model of the validated `pd.DataFrame`: a row count (`len(df)`) and the
named numeric columns.  Cells are modelled as exact rationals. -/
structure DF where
  nrows : ℕ
  cols : List (String × List ℚ)

/-- `df.columns = df.columns.str.lower().str.strip()` — the in-place
normalization of the table's column labels performed by
`validate_ramp_test` (it mutates the caller's frame). -/
def normalizeDF (df : DF) : DF :=
  ⟨df.nrows, df.cols.map fun p => (normName p.1, p.2)⟩

/-- The table's column labels. -/
def colNames (df : DF) : List String := df.cols.map Prod.fst

/-- `name in df.columns`. -/
def hasCol (df : DF) (name : String) : Bool := decide (name ∈ colNames df)

/-- `df[name].values` (first matching column; the validator only reads a
column after establishing membership). -/
def getCol (df : DF) (name : String) : List ℚ :=
  (((df.cols.find? fun p => decide (p.1 = name)).map Prod.snd).getD [])

/-! ### Numeric primitives (`numpy` / builtin helpers) -/

/-- `np.mean` (division by zero yields `0` in `ℚ`; the validator only takes
means of nonempty slices). -/
def npMean (l : List ℚ) : ℚ := l.sum / l.length

/-- Population variance `mean(|x - mean x|²)`, the square of `np.std`. -/
def npVariance (l : List ℚ) : ℚ :=
  (l.map fun x => (x - npMean l) ^ 2).sum / l.length

/-- `np.std` (population standard deviation). -/
noncomputable def npStd (l : List ℚ) : ℝ := Real.sqrt (npVariance l)

/-- `np.max` of a nonempty array (returns `0` on `[]`, never taken). -/
def npMax (l : List ℚ) : ℚ :=
  match l with
  | [] => 0
  | a :: t => t.foldl max a

/-- `np.diff`: consecutive differences. -/
def npDiff (l : List ℚ) : List ℚ := (l.zip l.tail).map fun p => p.2 - p.1

/-- Python `int(x)` on a float: truncation toward zero. -/
def ratTrunc (q : ℚ) : ℤ := if 0 ≤ q then ⌊q⌋ else -⌊-q⌋

/-- Round-half-to-even of a rational to an integer (the rounding used by
Python's builtin `round`). -/
def roundHalfEven (x : ℚ) : ℤ :=
  let f := ⌊x⌋
  let r := x - f
  if r < 1 / 2 then f
  else if 1 / 2 < r then f + 1
  else if f % 2 = 0 then f else f + 1

/-- Python `round(x, 1)`. -/
def pyRound1 (x : ℚ) : ℚ := (roundHalfEven (10 * x) : ℚ) / 10

/-! ### Centered rolling mean with pandas edge filling -/

/-- `pd.Series(l).rolling(window=w, center=True).mean()`: position `i`
carries the mean of the `w` samples at indices
`[i - (w-1)/2, i + w/2]` when that window lies inside the series, and
`NaN` (modelled as `none`) otherwise. -/
def rollingMeanC (w : ℕ) (l : List ℚ) : List (Option ℚ) :=
  (List.range l.length).map fun i =>
    if (w - 1) / 2 ≤ i ∧ i + w / 2 < l.length then
      some (npMean ((l.drop (i - (w - 1) / 2)).take w))
    else none

/-- Forward fill with a carried last-seen value (`ffill`). -/
def ffillGo (carry : Option ℚ) : List (Option ℚ) → List (Option ℚ)
  | [] => []
  | none :: t => carry :: ffillGo carry t
  | some x :: t => some x :: ffillGo (some x) t

/-- `Series.ffill()`. -/
def ffill (l : List (Option ℚ)) : List (Option ℚ) := ffillGo none l

/-- `Series.bfill()`. -/
def bfill (l : List (Option ℚ)) : List (Option ℚ) :=
  (ffillGo none l.reverse).reverse

/-- `.bfill().ffill().values`: a residual `none` (all-NaN series, never the
case for the windows the validator uses) is read as `0`. -/
def fillEnds (l : List (Option ℚ)) : List ℚ :=
  (ffill (bfill l)).map fun o => o.getD 0

/-- `pd.Series(power).rolling(window, center=True).mean().bfill().ffill().values` -/
def smoothedSeries (w : ℕ) (l : List ℚ) : List ℚ := fillEnds (rollingMeanC w l)

/-- `np.gradient` of a one-dimensional array (second-order central
differences, one-sided at the ends).  `np.gradient` raises on arrays of
fewer than two samples; the validator never reaches that case, and the
model returns a zero gradient there to stay total. -/
def npGradient (l : List ℚ) : List ℚ :=
  match l with
  | [] => []
  | [_] => [0]
  | _ =>
    (List.range l.length).map fun i =>
      if i = 0 then l.getD 1 0 - l.getD 0 0
      else if i = l.length - 1 then
        l.getD (l.length - 1) 0 - l.getD (l.length - 2) 0
      else (l.getD (i + 1) 0 - l.getD (i - 1) 0) / 2

/-! ### `_detect_power_steps` -/

/-- A detected power plateau (the step dict of `_detect_power_steps`).
The Python key `end` is a Lean keyword and is rendered `stop`. -/
structure Step where
  start : ℕ
  stop : ℕ
  duration : ℕ
  avg_power : ℚ
  deriving Repr, DecidableEq

/-- `power[start:end]`. -/
def listSlice (l : List ℚ) (start stop : ℕ) : List ℚ :=
  (l.drop start).take (stop - start)

/-- The boundary-scanning loop of `_detect_power_steps`: walk the gradient
from index `i` with the `in_transition` flag, accumulating step boundaries
in reverse order (`ss` is `step_starts` reversed, never empty). -/
def scanGo (minStep : ℕ) : List ℚ → ℕ → Bool → List ℕ → List ℕ
  | [], _, _, ss => ss
  | g :: rest, i, inT, ss =>
    if 1 / 2 < |g| then scanGo minStep rest (i + 1) true ss
    else
      if inT then
        scanGo minStep rest (i + 1) false
          (if minStep ≤ i - ss.headD 0 then i :: ss else ss)
      else scanGo minStep rest (i + 1) false ss

/-- The step-construction loop of `_detect_power_steps`: one candidate step
per consecutive boundary pair, plus a trailing candidate ending at the
series end; candidates shorter than `min_step_duration` are discarded. -/
def buildSteps (power : List ℚ) (minStep : ℕ) (starts : List ℕ) : List Step :=
  (starts.zip (starts.tail ++ [power.length])).filterMap fun p =>
    if minStep ≤ p.2 - p.1 then
      some ⟨p.1, p.2, p.2 - p.1, npMean (listSlice power p.1 p.2)⟩
    else none

/-- `_detect_power_steps`. -/
def detect_power_steps (power : List ℚ) (min_step_duration : ℕ := 30) :
    List Step :=
  if power.length < min_step_duration then []
  else
    let w0 := min 30 (power.length / 10)
    let window := if w0 < 5 then 5 else w0
    let smoothed := smoothedSeries window power
    let gradient := npGradient smoothed
    let step_starts := (scanGo min_step_duration (gradient.drop 1) 1 false [0]).reverse
    buildSteps power min_step_duration step_starts

/-! ### `_calculate_monotonicity` -/

/-- `_calculate_monotonicity`: among consecutive smoothed differences of
magnitude above the noise floor `1`, the fraction that are increases.
A series shorter than the window returns `0.0`; zero significant
transitions return `1.0`. -/
def calculate_monotonicity (power : List ℚ) (window : ℕ := 30) : ℚ :=
  if power.length < window then 0
  else
    let smoothed := smoothedSeries window power
    let ds := npDiff smoothed
    let total_transitions := (ds.filter fun d => 1 < |d|).length
    let increases := (ds.filter fun d => 1 < |d| ∧ 0 < d).length
    if total_transitions = 0 then 1
    else (increases : ℚ) / total_transitions

/-! ### `_detect_max_gap` -/

/-- `_detect_max_gap`: largest `diff − 1.0` over consecutive time
differences, truncated to an integer by Python's `int(...)` and clamped at
`0`; fewer than two samples give `0`. -/
def detect_max_gap (time : List ℚ) : ℤ :=
  if time.length < 2 then 0
  else
    let gaps := (npDiff time).map fun d => d - 1
    let max_gap := if 0 < gaps.length then ratTrunc (npMax gaps) else 0
    max 0 max_gap

/-! ### `_calculate_power_stability` -/

/-- The per-step coefficient-of-variation list of
`_calculate_power_stability`: steps with more than one sample and positive
mean power contribute `std/mean`. -/
noncomputable def stepCVs (power : List ℚ) (steps : List Step) : List ℝ :=
  steps.filterMap fun s =>
    let step_power := listSlice power s.start s.stop
    if 1 < step_power.length then
      if 0 < npMean step_power then
        some (npStd step_power / (npMean step_power : ℝ))
      else none
    else none

/-- `_calculate_power_stability`: `1.0` for an empty step list, `0.0` when
no step yields a valid CV, otherwise the mean CV. -/
noncomputable def calculate_power_stability (power : List ℚ) (steps : List Step) : ℝ :=
  if steps = [] then 1
  else
    let cvs := stepCVs power steps
    if cvs = [] then 0 else cvs.sum / cvs.length

/-! ### `VALIDATION_CRITERIA` and `_calculate_quality_score` -/

/-- The six fixed criterion names, keys of `VALIDATION_CRITERIA`. -/
inductive Criterion
  | duration
  | steps_count
  | monotonicity
  | data_gaps
  | cadence
  | power_stability
  deriving Repr, DecidableEq, Fintype

/-- One entry of the `VALIDATION_CRITERIA` table. -/
structure CriterionConfig where
  min : ℚ
  max : ℚ
  weight : ℚ
  description : String

/-- The fixed `VALIDATION_CRITERIA` configuration table. -/
def VALIDATION_CRITERIA : Criterion → CriterionConfig
  | .duration => ⟨300, 3600, 15 / 100, "Czas trwania testu"⟩
  | .steps_count => ⟨3, 20, 20 / 100, "Liczba stopni testu"⟩
  | .monotonicity => ⟨70 / 100, 1, 25 / 100, "Monotoniczność wzrostu mocy"⟩
  | .data_gaps => ⟨0, 5, 15 / 100, "Maksymalna przerwa w danych"⟩
  | .cadence => ⟨60, 120, 10 / 100, "Kadencja w dozwolonym zakresie"⟩
  | .power_stability => ⟨0, 15 / 100, 15 / 100, "Stabilność mocy na stopniu"⟩

/-- The iteration order of `criteria.items()` inside
`_calculate_quality_score`: the dict insertion order of
`validate_ramp_test`. -/
def criterionOrder : List Criterion :=
  [.duration, .steps_count, .monotonicity, .power_stability, .data_gaps, .cadence]

/-- `_calculate_quality_score` over the six fixed criteria (the dict the
validator builds always carries exactly these keys, so the `not criteria`
and unknown-key fallbacks of the Python function are never exercised). -/
def calculate_quality_score (criteria : Criterion → Bool) : ℚ :=
  let total_weight := (criterionOrder.map fun k => (VALIDATION_CRITERIA k).weight).sum
  let weighted_score :=
    ((criterionOrder.filter fun k => criteria k).map fun k =>
      (VALIDATION_CRITERIA k).weight).sum
  if total_weight = 0 then 0
  else pyRound1 (weighted_score / total_weight * 100)

/-- `all(criteria.values())`. -/
def allPass (criteria : Criterion → Bool) : Bool := criterionOrder.all criteria

/-- The status classification of `validate_ramp_test` (first match wins). -/
def statusOf (quality_score : ℚ) (criteria : Criterion → Bool) : String :=
  if 80 ≤ quality_score ∧ allPass criteria = true then "valid"
  else if 50 ≤ quality_score then "conditional"
  else "invalid"

/-! ### Report data model

The `TestValidityReport` container lives in
`modules/calculations/threshold_types.py`, which is not among the provided
sources.  Its fields are pinned by the constructor call at the end of
`validate_ramp_test`; human-readable strings built with f-string
formatting are modelled as inductive values carrying their unformatted
payloads. -/

/-- A raw `value` entry of a criterion detail dict. -/
inductive Val
  | int (n : ℤ)
  | rat (q : ℚ)
  | real (x : ℝ)

/-- A `value_display`/`expected` entry: the f-string template with its
payload. -/
inductive Disp
  | minutes (m : ℚ)
  | minutesRange (lo hi : ℚ)
  | stepsCount (n : ℕ)
  | stepsRange (lo hi : ℚ)
  | percent (p : ℚ)
  | percentMin (p : ℚ)
  | cvPercent (x : ℝ)
  | cvMax (x : ℚ)
  | seconds (g : ℤ)
  | secondsMax (g : ℚ)
  | percentInRange (p : ℚ)
  | cadenceRange (lo hi : ℚ) (minFrac : ℚ)

/-- A recommendation or warning message: the f-string template with its
payload. -/
inductive Msg
  | testTooShort (durationMin : ℚ)
  | testVeryLong (durationMin : ℚ)
  | tooFewSteps (n : ℕ)
  | lowMonotonicity (m : ℚ)
  | highPowerVariability (cv : ℝ)
  | dataGap (gap : ℤ)
  | cadenceOutOfRange
  | noPowerData

/-- One criterion's detail dict: keys absent from the Python dict are
`none`. -/
structure Detail where
  value : Option Val := none
  value_display : Option Disp := none
  expected : Option Disp := none
  note : Option String := none
  error : Option String := none
  steps : Option (List (ℚ × ℕ)) := none

/-- `criteria_details`: a criterion with no entry in the dict maps to
`none`. -/
structure CriteriaDetails where
  duration : Option Detail
  steps_count : Option Detail
  monotonicity : Option Detail
  data_gaps : Option Detail
  cadence : Option Detail
  power_stability : Option Detail

/-- Modelled from the spec: the `TestValidityReport` dataclass of
`modules/calculations/threshold_types.py` (absent from the provided
sources) — status, per-criterion booleans and details, quality score,
recommendations and warnings, exactly the fields the validator's final
constructor call supplies. -/
structure TestValidityReport where
  status : String
  criteria : Criterion → Bool
  criteria_details : CriteriaDetails
  quality_score : ℚ
  recommendations : List Msg
  warnings : List Msg

/-! ### `validate_ramp_test` -/

/-- The duration criterion's detail entry. -/
def durationDetail (n : ℕ) : Detail :=
  { value := some (.int n)
    value_display := some (.minutes ((n : ℚ) / 60))
    expected := some (.minutesRange ((VALIDATION_CRITERIA .duration).min / 60)
      ((VALIDATION_CRITERIA .duration).max / 60)) }

/-- The duration block's recommendation/warning messages (`if`/`elif`). -/
def durationMsgs (n : ℕ) : List Msg × List Msg :=
  if (n : ℚ) < (VALIDATION_CRITERIA .duration).min then
    ([.testTooShort ((n : ℚ) / 60)], [])
  else if (VALIDATION_CRITERIA .duration).max < (n : ℚ) then
    ([], [.testVeryLong ((n : ℚ) / 60)])
  else ([], [])

/-- The outcome of the power-dependent block of `validate_ramp_test`:
step-count, monotonicity and power-stability booleans, their detail
entries, and the block's recommendations/warnings. -/
structure PowerPart where
  steps_ok : Bool
  mono_ok : Bool
  stab_ok : Bool
  steps_detail : Option Detail
  mono_detail : Option Detail
  stab_detail : Option Detail
  recs : List Msg
  warns : List Msg

open Classical in
/-- The power-dependent block of `validate_ramp_test` when the power
column is present. -/
noncomputable def powerPart (power : List ℚ) : PowerPart :=
  let steps := detect_power_steps power
  let steps_count := steps.length
  let steps_ok := decide ((VALIDATION_CRITERIA .steps_count).min ≤ (steps_count : ℚ) ∧
    (steps_count : ℚ) ≤ (VALIDATION_CRITERIA .steps_count).max)
  let steps_recs :=
    if (steps_count : ℚ) < (VALIDATION_CRITERIA .steps_count).min then
      [Msg.tooFewSteps steps_count] else []
  let monotonicity := calculate_monotonicity power
  let mono_ok := decide ((VALIDATION_CRITERIA .monotonicity).min ≤ monotonicity)
  let mono_recs :=
    if monotonicity < (VALIDATION_CRITERIA .monotonicity).min then
      [Msg.lowMonotonicity monotonicity] else []
  let power_cv := calculate_power_stability power steps
  let stab_ok := decide (power_cv ≤ ((VALIDATION_CRITERIA .power_stability).max : ℝ))
  let stab_warns :=
    if ((VALIDATION_CRITERIA .power_stability).max : ℝ) < power_cv then
      [Msg.highPowerVariability power_cv] else []
  { steps_ok := steps_ok
    mono_ok := mono_ok
    stab_ok := stab_ok
    steps_detail := some
      { value := some (.int steps_count)
        value_display := some (.stepsCount steps_count)
        expected := some (.stepsRange (VALIDATION_CRITERIA .steps_count).min
          (VALIDATION_CRITERIA .steps_count).max)
        steps := some (steps.map fun s => (s.avg_power, s.duration)) }
    mono_detail := some
      { value := some (.rat monotonicity)
        value_display := some (.percent monotonicity)
        expected := some (.percentMin (VALIDATION_CRITERIA .monotonicity).min) }
    stab_detail := some
      { value := some (.real power_cv)
        value_display := some (.cvPercent power_cv)
        expected := some (.cvMax (VALIDATION_CRITERIA .power_stability).max) }
    recs := steps_recs ++ mono_recs
    warns := stab_warns }

/-- The `steps_count` detail entry written when the power column is
missing: an `error` field instead of `value_display`. -/
def stepsCountMissingDetail : Detail :=
  { value := some (.int 0), error := some "Brak kolumny mocy" }

/-- The power-dependent block when the power column is missing: all three
dependent criteria fail, only `steps_count` receives a detail entry, and a
missing-power recommendation is emitted. -/
def noPowerPart : PowerPart :=
  { steps_ok := false
    mono_ok := false
    stab_ok := false
    steps_detail := some stepsCountMissingDetail
    mono_detail := none
    stab_detail := none
    recs := [Msg.noPowerData]
    warns := [] }

/-- The outcome of the time-gap block. -/
structure TimePart where
  gap_ok : Bool
  gap_detail : Option Detail
  warns : List Msg

/-- The time-gap block when the time column is present. -/
def timePart (time : List ℚ) : TimePart :=
  let max_gap := detect_max_gap time
  let gap_ok := decide ((max_gap : ℚ) ≤ (VALIDATION_CRITERIA .data_gaps).max)
  { gap_ok := gap_ok
    gap_detail := some
      { value := some (.int max_gap)
        value_display := some (.seconds max_gap)
        expected := some (.secondsMax (VALIDATION_CRITERIA .data_gaps).max) }
    warns :=
      if (VALIDATION_CRITERIA .data_gaps).max < (max_gap : ℚ) then
        [Msg.dataGap max_gap] else [] }

/-- The time-gap block when the time column is missing: the criterion
defaults to pass with a note. -/
def noTimePart : TimePart :=
  { gap_ok := true
    gap_detail := some { value := some (.int 0), note := some "Brak kolumny czasu" }
    warns := [] }

/-- The outcome of the cadence block. -/
structure CadencePart where
  ok : Bool
  detail : Option Detail
  warns : List Msg

/-- The cadence block when no usable cadence data exists: default pass
with a note. -/
def noCadencePart : CadencePart :=
  { ok := true
    detail := some { value := none, note := some "Brak danych kadencji" }
    warns := [] }

/-- The cadence block when the cadence column is present.  The model's
cells carry no NaN, so `dropna()` is the identity here. -/
def cadencePart (values : List ℚ) : CadencePart :=
  if 0 < values.length then
    let inRange := values.filter fun x =>
      (VALIDATION_CRITERIA .cadence).min ≤ x ∧ x ≤ (VALIDATION_CRITERIA .cadence).max
    let cadence_in_range := (inRange.length : ℚ) / values.length
    { ok := decide (8 / 10 ≤ cadence_in_range)
      detail := some
        { value := some (.rat cadence_in_range)
          value_display := some (.percentInRange cadence_in_range)
          expected := some (.cadenceRange (VALIDATION_CRITERIA .cadence).min
            (VALIDATION_CRITERIA .cadence).max (8 / 10)) }
      warns := if cadence_in_range < 8 / 10 then [Msg.cadenceOutOfRange] else [] }
  else noCadencePart

/-- `cadence_column.lower() if cadence_column else None` (a `None` or
empty cadence-column name is replaced by `None`). -/
def lowerOpt (cc : Option String) : Option String :=
  match cc with
  | none => none
  | some s => if s = "" then none else some (pyLower s)

/-- The power-dependent block as the validator dispatches it: run
`powerPart` when the power column is present, otherwise the degraded
`noPowerPart`. -/
noncomputable def ppOf (df : DF) (pc : String) : PowerPart :=
  if hasCol df pc then powerPart (getCol df pc) else noPowerPart

/-- The time-gap block as the validator dispatches it. -/
def tpOf (df : DF) (tc : String) : TimePart :=
  if hasCol df tc then timePart (getCol df tc) else noTimePart

/-- The cadence block as the validator dispatches it. -/
def cpOf (df : DF) (cc : Option String) : CadencePart :=
  match cc with
  | some c => if hasCol df c then cadencePart (getCol df c) else noCadencePart
  | none => noCadencePart

/-- The body of `validate_ramp_test` after column normalization:
`df` has normalized labels, `pc`/`tc` are the lowercased power/time
column names and `cc` the lowercased optional cadence column name. -/
noncomputable def validateCore (df : DF) (pc tc : String) (cc : Option String) :
    TestValidityReport :=
  let n := df.nrows
  let durationOk := decide ((VALIDATION_CRITERIA .duration).min ≤ (n : ℚ) ∧
    (n : ℚ) ≤ (VALIDATION_CRITERIA .duration).max)
  let dm := durationMsgs n
  let pp := ppOf df pc
  let tp := tpOf df tc
  let cp := cpOf df cc
  let criteria : Criterion → Bool := fun k =>
    match k with
    | .duration => durationOk
    | .steps_count => pp.steps_ok
    | .monotonicity => pp.mono_ok
    | .data_gaps => tp.gap_ok
    | .cadence => cp.ok
    | .power_stability => pp.stab_ok
  let quality_score := calculate_quality_score criteria
  { status := statusOf quality_score criteria
    criteria := criteria
    criteria_details :=
      { duration := some (durationDetail n)
        steps_count := pp.steps_detail
        monotonicity := pp.mono_detail
        data_gaps := tp.gap_detail
        cadence := cp.detail
        power_stability := pp.stab_detail }
    quality_score := quality_score
    recommendations := dm.1 ++ pp.recs
    warnings := dm.2 ++ pp.warns ++ tp.warns ++ cp.warns }

/-- `validate_ramp_test`.  The label normalization mutates the caller's
frame in Python; a second call therefore receives `normalizeDF df`. -/
noncomputable def validate_ramp_test (df : DF) (power_column : String := "watts")
    (time_column : String := "time")
    (cadence_column : Option String := some "cadence") : TestValidityReport :=
  validateCore (normalizeDF df) (pyLower power_column) (pyLower time_column)
    (lowerOpt cadence_column)

/-! ### Definitions following the claims' words (for refinement comparison) -/

/-- Follows claim C8's words: two column names match when they agree
case-insensitively after trimming whitespace on both sides of the
comparison. -/
abbrev specColMatch (supplied label : String) : Prop :=
  normName supplied = normName label

/-- Follows claim C6's words: the largest value of `diff - 1.0`, floored
at `0` (no integer truncation). -/
def maxGapSpec (time : List ℚ) : ℚ :=
  if time.length < 2 then 0
  else max 0 (npMax ((npDiff time).map fun d => d - 1))


/-! ### Idempotence of the column-label normalization -/

lemma charOfNat_toNat_lower (n : ℕ) (h1 : 65 ≤ n) (h2 : n ≤ 90) :
    (Char.ofNat (n + 32)).toNat = n + 32 := by
  interval_cases n <;> decide

lemma pyCharLower_idem (c : Char) : pyCharLower (pyCharLower c) = pyCharLower c := by
  unfold pyCharLower
  by_cases h : 65 ≤ c.toNat ∧ c.toNat ≤ 90
  · rw [if_pos h, if_neg]
    rw [charOfNat_toNat_lower c.toNat h.1 h.2]
    omega
  · rw [if_neg h, if_neg h]

lemma mem_pyStripList {x : Char} {l : List Char} (hx : x ∈ pyStripList l) :
    x ∈ l := by
  unfold pyStripList at hx
  exact (List.dropWhile_suffix pyIsSpace).sublist.subset
    ((List.rdropWhile_prefix pyIsSpace _).sublist.subset hx)

lemma pyStripList_idem (l : List Char) :
    pyStripList (pyStripList l) = pyStripList l := by
  unfold pyStripList
  have hdrop : (List.rdropWhile pyIsSpace (l.dropWhile pyIsSpace)).dropWhile pyIsSpace
      = List.rdropWhile pyIsSpace (l.dropWhile pyIsSpace) := by
    rw [List.dropWhile_eq_self_iff]
    intro hl
    have hpre := List.rdropWhile_prefix pyIsSpace (l.dropWhile pyIsSpace)
    have h0 : 0 < (l.dropWhile pyIsSpace).length :=
      Nat.lt_of_lt_of_le hl hpre.length_le
    have hget : (List.rdropWhile pyIsSpace (l.dropWhile pyIsSpace)).get ⟨0, hl⟩
        = (l.dropWhile pyIsSpace).get ⟨0, h0⟩ := by
      simp only [List.get_eq_getElem]
      exact hpre.getElem hl
    rw [hget]
    exact List.dropWhile_get_zero_not pyIsSpace l h0
  rw [hdrop, List.rdropWhile_idempotent]

lemma normName_idem (s : String) : normName (normName s) = normName s := by
  unfold normName pyStrip pyLower
  apply congrArg String.mk
  show pyStripList ((pyStripList (s.data.map pyCharLower)).map pyCharLower)
      = pyStripList (s.data.map pyCharLower)
  have hfix : ∀ x ∈ pyStripList (s.data.map pyCharLower), pyCharLower x = x := by
    intro x hx
    obtain ⟨y, _, hy⟩ := List.mem_map.mp (mem_pyStripList hx)
    rw [← hy]
    exact pyCharLower_idem y
  rw [List.map_congr_left hfix, List.map_id', pyStripList_idem]

lemma normalizeDF_idem (df : DF) : normalizeDF (normalizeDF df) = normalizeDF df := by
  unfold normalizeDF
  simp only [List.map_map, DF.mk.injEq, true_and]
  apply List.map_congr_left
  intro p _
  simp [Function.comp, normName_idem]

/-! ### Status classification facts -/

lemma statusOf_spec (qs : ℚ) (c : Criterion → Bool) :
    (statusOf qs c = "valid" ↔ 80 ≤ qs ∧ allPass c = true) ∧
    (statusOf qs c = "conditional" ↔ ¬(80 ≤ qs ∧ allPass c = true) ∧ 50 ≤ qs) ∧
    (statusOf qs c = "invalid" ↔ ¬(80 ≤ qs ∧ allPass c = true) ∧ ¬50 ≤ qs) := by
  have hvc : ("valid" : String) ≠ "conditional" := by decide
  have hvi : ("valid" : String) ≠ "invalid" := by decide
  have hcv : ("conditional" : String) ≠ "valid" := by decide
  have hci : ("conditional" : String) ≠ "invalid" := by decide
  have hiv : ("invalid" : String) ≠ "valid" := by decide
  have hic : ("invalid" : String) ≠ "conditional" := by decide
  unfold statusOf
  by_cases h1 : 80 ≤ qs ∧ allPass c = true
  · rw [if_pos h1]
    have h2 : (50 : ℚ) ≤ qs := le_trans (by norm_num) h1.1
    exact ⟨by simp [h1], by simp [hvc, h1], by simp [hvi, h1]⟩
  · rw [if_neg h1]
    by_cases h2 : 50 ≤ qs
    · rw [if_pos h2]
      exact ⟨by simp [hcv, h1], by simp [h1, h2], by simp [hci, h1, h2]⟩
    · rw [if_neg h2]
      exact ⟨by simp [hiv, h1, h2], by simp [hic, h1, h2], by simp [h1, h2]⟩

/-! ### Claim theorems -/

/-- C9: for every input table, a second validation call on the same
(otherwise unmodified) input — i.e. on the frame whose column labels the
first call normalized in place — returns a report identical to the first
call's. -/
theorem validate_ramp_test_idempotent (df : DF) (pc tc : String) (cc : Option String) :
    validate_ramp_test (normalizeDF df) pc tc cc = validate_ramp_test df pc tc cc := by
  unfold validate_ramp_test
  rw [normalizeDF_idem]

/-- C2: the returned status is determined from the quality score and the
criterion booleans by the first matching rule of: valid when score ≥ 80
and every criterion passed; otherwise conditional when score ≥ 50;
otherwise invalid — and no other status value is ever produced. -/
theorem validate_status_rule (df : DF) (pc tc : String) (cc : Option String) :
    (validate_ramp_test df pc tc cc).status
        = statusOf (validate_ramp_test df pc tc cc).quality_score
            (validate_ramp_test df pc tc cc).criteria ∧
    ((validate_ramp_test df pc tc cc).status = "valid" ↔
        80 ≤ (validate_ramp_test df pc tc cc).quality_score ∧
        allPass (validate_ramp_test df pc tc cc).criteria = true) ∧
    ((validate_ramp_test df pc tc cc).status = "conditional" ↔
        ¬(80 ≤ (validate_ramp_test df pc tc cc).quality_score ∧
          allPass (validate_ramp_test df pc tc cc).criteria = true) ∧
        50 ≤ (validate_ramp_test df pc tc cc).quality_score) ∧
    ((validate_ramp_test df pc tc cc).status = "invalid" ↔
        ¬(80 ≤ (validate_ramp_test df pc tc cc).quality_score ∧
          allPass (validate_ramp_test df pc tc cc).criteria = true) ∧
        ¬50 ≤ (validate_ramp_test df pc tc cc).quality_score) ∧
    ((validate_ramp_test df pc tc cc).status = "valid" ∨
      (validate_ramp_test df pc tc cc).status = "conditional" ∨
      (validate_ramp_test df pc tc cc).status = "invalid") := by
  have hs : (validate_ramp_test df pc tc cc).status
      = statusOf (validate_ramp_test df pc tc cc).quality_score
          (validate_ramp_test df pc tc cc).criteria := rfl
  have htri : ∀ (qs : ℚ) (c : Criterion → Bool),
      statusOf qs c = "valid" ∨ statusOf qs c = "conditional" ∨
        statusOf qs c = "invalid" := by
    intro qs c
    unfold statusOf
    split_ifs <;> simp
  obtain ⟨h1, h2, h3⟩ := statusOf_spec (validate_ramp_test df pc tc cc).quality_score
    (validate_ramp_test df pc tc cc).criteria
  rw [hs]
  exact ⟨rfl, h1, h2, h3, htri _ _⟩

/-- C1: the quality score is `round(100 * passed_weight / total_weight, 1)`
over the fixed configuration table; all six criteria passing gives exactly
100.0, a single failing criterion gives 100 minus its weight times 100,
and the score always lies in [0, 100]. -/
lemma roundHalfEven_bounds (x : ℚ) :
    x - 1 / 2 ≤ (roundHalfEven x : ℚ) ∧ (roundHalfEven x : ℚ) ≤ x + 1 / 2 := by
  have hf1 : ((⌊x⌋ : ℤ) : ℚ) ≤ x := Int.floor_le x
  have hf2 : x < (⌊x⌋ : ℤ) + 1 := Int.lt_floor_add_one x
  simp only [roundHalfEven]
  split_ifs <;> push_cast <;> constructor <;> linarith

lemma pyRound1_range {y : ℚ} (h0 : 0 ≤ y) (h1 : y ≤ 100) :
    0 ≤ pyRound1 y ∧ pyRound1 y ≤ 100 := by
  obtain ⟨hl, hu⟩ := roundHalfEven_bounds (10 * y)
  have hz0 : (0 : ℤ) ≤ roundHalfEven (10 * y) := by
    by_contra h
    push_neg at h
    have : ((roundHalfEven (10 * y) : ℤ) : ℚ) ≤ -1 := by exact_mod_cast Int.le_sub_one_of_lt h
    linarith
  have hz1 : roundHalfEven (10 * y) ≤ 1000 := by
    by_contra h
    push_neg at h
    have : (1001 : ℚ) ≤ ((roundHalfEven (10 * y) : ℤ) : ℚ) := by exact_mod_cast h
    linarith
  unfold pyRound1
  constructor
  · exact div_nonneg (by exact_mod_cast hz0) (by norm_num)
  · have hc : ((roundHalfEven (10 * y) : ℤ) : ℚ) ≤ 1000 := by exact_mod_cast hz1
    linarith

/-- C1: the quality score is `round(100 * passed_weight / total_weight, 1)`
over the fixed configuration table; all six criteria passing gives exactly
100.0, a single failing criterion gives 100 minus its weight times 100,
and the score always lies in [0, 100]. -/
theorem quality_score_spec :
    (∀ c : Criterion → Bool,
      calculate_quality_score c =
        pyRound1 (100 *
          (((criterionOrder.filter fun k => c k).map fun k =>
              (VALIDATION_CRITERIA k).weight).sum) /
          ((criterionOrder.map fun k => (VALIDATION_CRITERIA k).weight).sum)) ∧
      0 ≤ calculate_quality_score c ∧ calculate_quality_score c ≤ 100) ∧
    calculate_quality_score (fun _ => true) = 100 ∧
    (∀ k : Criterion,
      calculate_quality_score (fun j => !decide (j = k)) =
        100 - (VALIDATION_CRITERIA k).weight * 100) := by
  have htw : ((criterionOrder.map fun k => (VALIDATION_CRITERIA k).weight).sum) = 1 := by
    norm_num [criterionOrder, VALIDATION_CRITERIA]
  refine ⟨?_, ?_, ?_⟩
  · intro c
    have hws0 : 0 ≤ (((criterionOrder.filter fun k => c k).map fun k =>
        (VALIDATION_CRITERIA k).weight).sum) := by
      apply List.sum_nonneg
      intro a ha
      obtain ⟨k, _, hk⟩ := List.mem_map.mp ha
      rw [← hk]
      cases k <;> norm_num [VALIDATION_CRITERIA]
    have hws1 : (((criterionOrder.filter fun k => c k).map fun k =>
        (VALIDATION_CRITERIA k).weight).sum) ≤ 1 := by
      rw [← htw]
      apply List.Sublist.sum_le_sum ((List.filter_sublist _).map _)
      intro a ha
      obtain ⟨k, _, hk⟩ := List.mem_map.mp ha
      rw [← hk]
      cases k <;> norm_num [VALIDATION_CRITERIA]
    have heq : calculate_quality_score c =
        pyRound1 (100 * (((criterionOrder.filter fun k => c k).map fun k =>
          (VALIDATION_CRITERIA k).weight).sum) /
          ((criterionOrder.map fun k => (VALIDATION_CRITERIA k).weight).sum)) := by
      unfold calculate_quality_score
      rw [if_neg (by rw [htw]; norm_num), htw]
      congr 1
      ring
    refine ⟨heq, ?_, ?_⟩ <;> rw [heq, htw]
    · exact (pyRound1_range (by positivity) (by linarith)).1
    · exact (pyRound1_range (by positivity) (by linarith)).2
  · simp only [calculate_quality_score, criterionOrder, VALIDATION_CRITERIA, List.filter]
    norm_num [pyRound1, roundHalfEven]
  · intro k
    cases k <;>
      simp [calculate_quality_score, criterionOrder, VALIDATION_CRITERIA, List.filter] <;>
      norm_num [pyRound1, roundHalfEven]

lemma colNames_normalizeDF (df : DF) :
    colNames (normalizeDF df) = (colNames df).map normName := by
  simp [colNames, normalizeDF, List.map_map]

/-- C8 counterexample: the table column `watts` and the supplied power
name `" watts "` match case-insensitively after trimming on both sides,
yet the validator does not recognize the column — the supplied name is
lowercased but never trimmed — so the power-dependent criteria fail. -/
theorem column_matching_counterexample :
    specColMatch " watts " "watts" ∧
    hasCol (normalizeDF ⟨3, [("watts", [1, 2, 3])]⟩) (pyLower " watts ") = false ∧
    (validate_ramp_test ⟨3, [("watts", [1, 2, 3])]⟩ " watts " "time" none).criteria
      .steps_count = false := by
  refine ⟨by decide, by decide, rfl⟩

/-- C8 amended: a column is recognized iff the lowercased — but untrimmed —
supplied name equals the lowercased-and-trimmed form of some table label;
for a supplied name carrying no surrounding whitespace this is exactly
case-insensitive-after-trimming matching, but a supplied name with
surrounding whitespace is never matched. -/
theorem column_matching_amended (df : DF) (name : String) :
    (hasCol (normalizeDF df) (pyLower name) = true ↔
      ∃ nm ∈ colNames df, normName nm = pyLower name) ∧
    (pyStrip (pyLower name) = pyLower name →
      (hasCol (normalizeDF df) (pyLower name) = true ↔
        ∃ nm ∈ colNames df, specColMatch name nm)) := by
  have hbase : hasCol (normalizeDF df) (pyLower name) = true ↔
      ∃ nm ∈ colNames df, normName nm = pyLower name := by
    unfold hasCol
    rw [decide_eq_true_iff, colNames_normalizeDF, List.mem_map]
  refine ⟨hbase, fun hstrip => hbase.trans ?_⟩
  have hnn : normName name = pyLower name := hstrip
  unfold specColMatch
  rw [hnn]
  exact exists_congr fun nm => and_congr_right fun _ => eq_comm

/-- C8 witness: a trimmed supplied name is recognized whenever it matches
a table label case-insensitively after trimming. -/
theorem column_matching_witness :
    pyStrip (pyLower "watts") = pyLower "watts" ∧
    (hasCol (normalizeDF ⟨1, [("Watts ", [5])]⟩) (pyLower "watts") = true ↔
      ∃ nm ∈ colNames ⟨1, [("Watts ", [5])]⟩, specColMatch "watts" nm) :=
  ⟨by decide, (column_matching_amended ⟨1, [("Watts ", [5])]⟩ "watts").2 (by decide)⟩

/-- C4 counterexample: on a table lacking the power column the report's
`criteria_details` carries no entry at all for `monotonicity` and
`power_stability` — contrary to the claim that each of the three
power-dependent criteria carries an explanatory detail entry. -/
theorem missing_power_counterexample :
    hasCol (normalizeDF ⟨5, [("time", [0, 1, 2, 3, 4])]⟩) (pyLower "watts") = false ∧
    (validate_ramp_test ⟨5, [("time", [0, 1, 2, 3, 4])]⟩ "watts" "time"
      (some "cadence")).criteria_details.monotonicity = none ∧
    (validate_ramp_test ⟨5, [("time", [0, 1, 2, 3, 4])]⟩ "watts" "time"
      (some "cadence")).criteria_details.power_stability = none := by
  refine ⟨by decide, rfl, rfl⟩

/-- C4 amended: on every table lacking the power column the validator
returns (does not raise) a report in which `steps_count`, `monotonicity`
and `power_stability` are all False; the `steps_count` criterion carries
an explanatory detail entry (an `error` field instead of `value_display`)
while `monotonicity` and `power_stability` carry no detail entry; a
recommendation that power data is missing is present; and the `duration`,
`data_gaps` and `cadence` criteria are still evaluated independently. -/
theorem missing_power_amended (df : DF) (pc tc : String) (cc : Option String)
    (hp : hasCol (normalizeDF df) (pyLower pc) = false) :
    (validate_ramp_test df pc tc cc).criteria .steps_count = false ∧
    (validate_ramp_test df pc tc cc).criteria .monotonicity = false ∧
    (validate_ramp_test df pc tc cc).criteria .power_stability = false ∧
    (validate_ramp_test df pc tc cc).criteria_details.steps_count
        = some stepsCountMissingDetail ∧
    stepsCountMissingDetail.error = some "Brak kolumny mocy" ∧
    stepsCountMissingDetail.value_display = none ∧
    (validate_ramp_test df pc tc cc).criteria_details.monotonicity = none ∧
    (validate_ramp_test df pc tc cc).criteria_details.power_stability = none ∧
    Msg.noPowerData ∈ (validate_ramp_test df pc tc cc).recommendations ∧
    (validate_ramp_test df pc tc cc).criteria .duration
        = decide ((VALIDATION_CRITERIA .duration).min ≤ (df.nrows : ℚ) ∧
            (df.nrows : ℚ) ≤ (VALIDATION_CRITERIA .duration).max) ∧
    (validate_ramp_test df pc tc cc).criteria .data_gaps
        = (if hasCol (normalizeDF df) (pyLower tc)
            then timePart (getCol (normalizeDF df) (pyLower tc))
            else noTimePart).gap_ok ∧
    (validate_ramp_test df pc tc cc).criteria .cadence
        = (match lowerOpt cc with
            | some c => if hasCol (normalizeDF df) c
                then cadencePart (getCol (normalizeDF df) c) else noCadencePart
            | none => noCadencePart).ok := by
  have hpp : ppOf (normalizeDF df) (pyLower pc) = noPowerPart := by
    simp [ppOf, hp]
  have hnr : (normalizeDF df).nrows = df.nrows := rfl
  unfold validate_ramp_test validateCore
  simp [hpp, hnr, tpOf, cpOf, noPowerPart, stepsCountMissingDetail]

/-- C4 witness: a concrete table without a power column exercising the
amended theorem. -/
theorem missing_power_witness :
    hasCol (normalizeDF ⟨2, [("cadence", [80, 85])]⟩) (pyLower "watts") = false ∧
    (validate_ramp_test ⟨2, [("cadence", [80, 85])]⟩ "watts" "time"
      (some "cadence")).criteria .steps_count = false :=
  ⟨by decide,
    (missing_power_amended ⟨2, [("cadence", [80, 85])]⟩ "watts" "time"
      (some "cadence") (by decide)).1⟩

/-! ### Projection lemmas for the assembled report -/

lemma validate_criteria_eq (df : DF) (pc tc : String) (cc : Option String) :
    (validate_ramp_test df pc tc cc).criteria = fun k =>
      match k with
      | .duration => decide ((VALIDATION_CRITERIA .duration).min ≤ (df.nrows : ℚ) ∧
          (df.nrows : ℚ) ≤ (VALIDATION_CRITERIA .duration).max)
      | .steps_count => (ppOf (normalizeDF df) (pyLower pc)).steps_ok
      | .monotonicity => (ppOf (normalizeDF df) (pyLower pc)).mono_ok
      | .data_gaps => (tpOf (normalizeDF df) (pyLower tc)).gap_ok
      | .cadence => (cpOf (normalizeDF df) (lowerOpt cc)).ok
      | .power_stability => (ppOf (normalizeDF df) (pyLower pc)).stab_ok := rfl

lemma validate_warnings_eq (df : DF) (pc tc : String) (cc : Option String) :
    (validate_ramp_test df pc tc cc).warnings =
      (durationMsgs df.nrows).2 ++ (ppOf (normalizeDF df) (pyLower pc)).warns ++
        (tpOf (normalizeDF df) (pyLower tc)).warns ++
        (cpOf (normalizeDF df) (lowerOpt cc)).warns := rfl

lemma validate_recommendations_eq (df : DF) (pc tc : String) (cc : Option String) :
    (validate_ramp_test df pc tc cc).recommendations =
      (durationMsgs df.nrows).1 ++ (ppOf (normalizeDF df) (pyLower pc)).recs := rfl

lemma powerPart_stab_ok (p : List ℚ) :
    (powerPart p).stab_ok = decide (calculate_power_stability p (detect_power_steps p)
      ≤ ((VALIDATION_CRITERIA .power_stability).max : ℝ)) := rfl

lemma powerPart_mono_ok (p : List ℚ) :
    (powerPart p).mono_ok =
      decide ((VALIDATION_CRITERIA .monotonicity).min ≤ calculate_monotonicity p) := rfl

lemma powerPart_warns_eq (p : List ℚ) :
    (powerPart p).warns =
      if ((VALIDATION_CRITERIA .power_stability).max : ℝ)
          < calculate_power_stability p (detect_power_steps p) then
        [Msg.highPowerVariability (calculate_power_stability p (detect_power_steps p))]
      else [] := rfl

lemma powerPart_recs_eq (p : List ℚ) :
    (powerPart p).recs =
      (if ((detect_power_steps p).length : ℚ) < (VALIDATION_CRITERIA .steps_count).min then
        [Msg.tooFewSteps (detect_power_steps p).length] else []) ++
      (if calculate_monotonicity p < (VALIDATION_CRITERIA .monotonicity).min then
        [Msg.lowMonotonicity (calculate_monotonicity p)] else []) := rfl

lemma timePart_gap_ok (t : List ℚ) :
    (timePart t).gap_ok
      = decide ((detect_max_gap t : ℚ) ≤ (VALIDATION_CRITERIA .data_gaps).max) := rfl

lemma highP_not_mem_durationWarns (n : ℕ) (x : ℝ) :
    Msg.highPowerVariability x ∉ (durationMsgs n).2 := by
  unfold durationMsgs
  split_ifs <;> simp

lemma highP_not_mem_durationRecs (n : ℕ) (x : ℝ) :
    Msg.highPowerVariability x ∉ (durationMsgs n).1 := by
  unfold durationMsgs
  split_ifs <;> simp

lemma highP_not_mem_tpWarns (df : DF) (tc : String) (x : ℝ) :
    Msg.highPowerVariability x ∉ (tpOf df tc).warns := by
  unfold tpOf timePart noTimePart
  split_ifs <;> simp

lemma highP_not_mem_cpWarns (df : DF) (cc : Option String) (x : ℝ) :
    Msg.highPowerVariability x ∉ (cpOf df cc).warns := by
  cases cc with
  | none => simp [cpOf, noCadencePart]
  | some c =>
    simp only [cpOf]
    split_ifs with h1
    · unfold cadencePart
      split_ifs with h2
      · dsimp only
        split_ifs <;> simp
      · simp [noCadencePart]
    · simp [noCadencePart]

/-- C5: power stability returns 1.0 on an empty step list; 0.0 when steps
exist but none yields a valid CV (more than one sample and positive mean);
otherwise the mean of the per-step `std/mean` values; the power_stability
criterion passes iff the value is at most 0.15, and exceedance produces a
warning (never a recommendation). -/
theorem power_stability_spec :
    (∀ power : List ℚ, calculate_power_stability power [] = 1) ∧
    (∀ (power : List ℚ) (steps : List Step), steps ≠ [] →
      (∀ s ∈ steps, ¬(1 < (listSlice power s.start s.stop).length ∧
          0 < npMean (listSlice power s.start s.stop))) →
      calculate_power_stability power steps = 0) ∧
    (∀ (power : List ℚ) (steps : List Step), steps ≠ [] →
      stepCVs power steps ≠ [] →
      calculate_power_stability power steps
        = (stepCVs power steps).sum / (stepCVs power steps).length) ∧
    (∀ (df : DF) (pc tc : String) (cc : Option String),
      hasCol (normalizeDF df) (pyLower pc) = true →
      ((validate_ramp_test df pc tc cc).criteria .power_stability = true ↔
        calculate_power_stability (getCol (normalizeDF df) (pyLower pc))
            (detect_power_steps (getCol (normalizeDF df) (pyLower pc)))
          ≤ ((VALIDATION_CRITERIA .power_stability).max : ℝ)) ∧
      (∀ x : ℝ,
        Msg.highPowerVariability x ∈ (validate_ramp_test df pc tc cc).warnings ↔
          ((VALIDATION_CRITERIA .power_stability).max : ℝ)
              < calculate_power_stability (getCol (normalizeDF df) (pyLower pc))
                  (detect_power_steps (getCol (normalizeDF df) (pyLower pc))) ∧
          x = calculate_power_stability (getCol (normalizeDF df) (pyLower pc))
                (detect_power_steps (getCol (normalizeDF df) (pyLower pc))))) ∧
    (∀ (df : DF) (pc tc : String) (cc : Option String) (x : ℝ),
      Msg.highPowerVariability x ∉ (validate_ramp_test df pc tc cc).recommendations) := by
  refine ⟨?_, ?_, ?_, ?_, ?_⟩
  · intro power
    simp [calculate_power_stability]
  · intro power steps hne hno
    have hcv : stepCVs power steps = [] := by
      rw [stepCVs, List.filterMap_eq_nil_iff]
      intro s hs
      have hq := hno s hs
      dsimp only
      split_ifs with h1 h2
      · exact absurd ⟨h1, h2⟩ hq
      · rfl
      · rfl
    rw [calculate_power_stability, if_neg hne]
    simp [hcv]
  · intro power steps hne hcv
    rw [calculate_power_stability, if_neg hne]
    simp [hcv]
  · intro df pc tc cc hp
    have hpp : ppOf (normalizeDF df) (pyLower pc)
        = powerPart (getCol (normalizeDF df) (pyLower pc)) := by
      simp [ppOf, hp]
    constructor
    · have h1 : (validate_ramp_test df pc tc cc).criteria .power_stability
          = (ppOf (normalizeDF df) (pyLower pc)).stab_ok := by
        rw [validate_criteria_eq]
      rw [h1, hpp, powerPart_stab_ok, decide_eq_true_iff]
    · intro x
      rw [validate_warnings_eq, hpp, powerPart_warns_eq]
      by_cases hc : ((VALIDATION_CRITERIA .power_stability).max : ℝ)
          < calculate_power_stability (getCol (normalizeDF df) (pyLower pc))
              (detect_power_steps (getCol (normalizeDF df) (pyLower pc)))
      · simp [hc, List.mem_append, highP_not_mem_durationWarns,
          highP_not_mem_tpWarns, highP_not_mem_cpWarns]
      · simp [hc, List.mem_append, highP_not_mem_durationWarns,
          highP_not_mem_tpWarns, highP_not_mem_cpWarns]
  · intro df pc tc cc x
    rw [validate_recommendations_eq]
    by_cases hp : hasCol (normalizeDF df) (pyLower pc) = true
    · have hpp : ppOf (normalizeDF df) (pyLower pc)
          = powerPart (getCol (normalizeDF df) (pyLower pc)) := by
        simp [ppOf, hp]
      rw [hpp, powerPart_recs_eq]
      simp only [List.mem_append, List.mem_singleton]
      intro hmem
      rcases hmem with h | h | h
      · exact highP_not_mem_durationRecs df.nrows x h
      · revert h
        split_ifs <;> simp
      · revert h
        split_ifs <;> simp
    · have hpp : ppOf (normalizeDF df) (pyLower pc) = noPowerPart := by
        simp [ppOf, hp]
      rw [hpp]
      simp [noPowerPart, highP_not_mem_durationRecs]

/-! ### C6: gap detection -/

lemma npDiff_length (l : List ℚ) : (npDiff l).length = l.length - 1 := by
  simp [npDiff, List.length_zip, List.length_tail]

/-- C6 counterexample: for the time array `[0, 3.5]` the claim's value is
`2.5` but the code truncates to the integer `2`; and for `[0, 6.3]` the
claim's gap `5.3` exceeds the 5-second threshold, yet the validator's
data_gaps criterion still passes because the truncated gap is `5`. -/
theorem detect_max_gap_counterexample :
    maxGapSpec [0, 7 / 2] = 5 / 2 ∧
    (detect_max_gap [0, 7 / 2] : ℚ) = 2 ∧
    (detect_max_gap [0, 7 / 2] : ℚ) ≠ maxGapSpec [0, 7 / 2] ∧
    maxGapSpec [0, 63 / 10] = 53 / 10 ∧
    (VALIDATION_CRITERIA .data_gaps).max < maxGapSpec [0, 63 / 10] ∧
    (validate_ramp_test ⟨2, [("time", [0, 63 / 10])]⟩ "watts" "time" none).criteria
      .data_gaps = true := by
  have hd1 : npDiff [0, 7 / 2] = [7 / 2] := by
    norm_num [npDiff]
  have hd2 : npDiff [0, 63 / 10] = [63 / 10] := by
    norm_num [npDiff]
  refine ⟨?_, ?_, ?_, ?_, ?_, ?_⟩
  · rw [maxGapSpec, if_neg (by norm_num), hd1]
    norm_num [npMax]
  · rw [detect_max_gap, if_neg (by norm_num), hd1]
    norm_num [npMax, ratTrunc]
  · rw [maxGapSpec, if_neg (by norm_num), hd1, detect_max_gap, if_neg (by norm_num), hd1]
    norm_num [npMax, ratTrunc]
  · rw [maxGapSpec, if_neg (by norm_num), hd2]
    norm_num [npMax]
  · rw [maxGapSpec, if_neg (by norm_num), hd2]
    norm_num [npMax, VALIDATION_CRITERIA]
  · have hhas : hasCol (normalizeDF ⟨2, [("time", [0, 63 / 10])]⟩) (pyLower "time")
        = true := by decide
    have hget : getCol (normalizeDF ⟨2, [("time", [0, 63 / 10])]⟩) (pyLower "time")
        = [0, 63 / 10] := rfl
    have hgap : detect_max_gap [0, 63 / 10] = 5 := by
      rw [detect_max_gap, if_neg (by norm_num), hd2]
      norm_num [npMax, ratTrunc]
    rw [validate_criteria_eq]
    show (tpOf (normalizeDF ⟨2, [("time", [0, 63 / 10])]⟩) (pyLower "time")).gap_ok = true
    rw [tpOf, if_pos hhas, hget, timePart_gap_ok, hgap]
    norm_num [VALIDATION_CRITERIA]

/-- C6 amended: the gap detector returns the Python-`int` truncation of
the largest `diff − 1.0`, clamped at 0 (so negative gaps from out-of-order
or duplicate timestamps report 0); fewer than two samples yield gap 0; the
data_gaps criterion passes iff this (truncated) max gap is at most 5; and
when the time column is absent the criterion defaults to pass. -/
theorem detect_max_gap_spec :
    (∀ t : List ℚ, t.length < 2 → detect_max_gap t = 0) ∧
    (∀ t : List ℚ, 0 ≤ detect_max_gap t) ∧
    (∀ t : List ℚ, 2 ≤ t.length →
      detect_max_gap t = max 0 (ratTrunc (npMax ((npDiff t).map fun d => d - 1)))) ∧
    (∀ (df : DF) (pc tc : String) (cc : Option String),
      hasCol (normalizeDF df) (pyLower tc) = true →
      ((validate_ramp_test df pc tc cc).criteria .data_gaps = true ↔
        ((detect_max_gap (getCol (normalizeDF df) (pyLower tc)) : ℚ)
          ≤ (VALIDATION_CRITERIA .data_gaps).max))) ∧
    (∀ (df : DF) (pc tc : String) (cc : Option String),
      hasCol (normalizeDF df) (pyLower tc) = false →
      (validate_ramp_test df pc tc cc).criteria .data_gaps = true) := by
  refine ⟨?_, ?_, ?_, ?_, ?_⟩
  · intro t ht
    rw [detect_max_gap, if_pos ht]
  · intro t
    rw [detect_max_gap]
    split_ifs <;> simp
  · intro t ht
    rw [detect_max_gap, if_neg (by omega)]
    have hlen : 0 < ((npDiff t).map fun d => d - 1).length := by
      rw [List.length_map, npDiff_length]
      omega
    simp only [hlen, if_pos]
  · intro df pc tc cc ht
    have h1 : (validate_ramp_test df pc tc cc).criteria .data_gaps
        = (tpOf (normalizeDF df) (pyLower tc)).gap_ok := by
      rw [validate_criteria_eq]
    rw [h1, tpOf, if_pos ht, timePart_gap_ok, decide_eq_true_iff]
  · intro df pc tc cc ht
    have h1 : (validate_ramp_test df pc tc cc).criteria .data_gaps
        = (tpOf (normalizeDF df) (pyLower tc)).gap_ok := by
      rw [validate_criteria_eq]
    rw [h1, tpOf, if_neg (by simp [ht]), noTimePart]

/-- C5 witness: a concrete table with a power column exercising the
criterion/warning characterization. -/
theorem power_stability_witness :
    hasCol (normalizeDF ⟨3, [("watts", [100, 100, 100])]⟩) (pyLower "watts") = true ∧
    ((validate_ramp_test ⟨3, [("watts", [100, 100, 100])]⟩ "watts" "time" none).criteria
        .power_stability = true ↔
      calculate_power_stability
          (getCol (normalizeDF ⟨3, [("watts", [100, 100, 100])]⟩) (pyLower "watts"))
          (detect_power_steps
            (getCol (normalizeDF ⟨3, [("watts", [100, 100, 100])]⟩) (pyLower "watts")))
        ≤ ((VALIDATION_CRITERIA .power_stability).max : ℝ)) :=
  ⟨by decide,
    ((power_stability_spec.2.2.2.1 ⟨3, [("watts", [100, 100, 100])]⟩ "watts" "time" none
      (by decide)).1)⟩

/-- C6 witness: concrete instances of the amended gap characterization. -/
theorem detect_max_gap_witness :
    (2 ≤ ([0, 8] : List ℚ).length ∧
      detect_max_gap [0, 8]
        = max 0 (ratTrunc (npMax ((npDiff [0, 8]).map fun d => d - 1)))) ∧
    (hasCol (normalizeDF ⟨1, []⟩) (pyLower "time") = false ∧
      (validate_ramp_test ⟨1, []⟩ "watts" "time" none).criteria .data_gaps = true) :=
  ⟨⟨by norm_num, detect_max_gap_spec.2.2.1 [0, 8] (by norm_num)⟩,
    ⟨by decide, detect_max_gap_spec.2.2.2.2 ⟨1, []⟩ "watts" "time" none (by decide)⟩⟩

/-! ### C3: monotonicity -/

lemma npMean_replicate (w : ℕ) (hw : 0 < w) (c : ℚ) :
    npMean (List.replicate w c) = c := by
  rw [npMean, List.sum_replicate, List.length_replicate, nsmul_eq_mul]
  have : (w : ℚ) ≠ 0 := by exact_mod_cast hw.ne.symm
  field_simp

lemma ffillGo_all_some {c : ℚ} (l : List (Option ℚ))
    (h : ∀ x ∈ l, x = some c ∨ x = none) :
    ffillGo (some c) l = List.replicate l.length (some c) := by
  induction l with
  | nil => simp [ffillGo]
  | cons a t ih =>
    have ht := fun x hx => h x (List.mem_cons_of_mem _ hx)
    rcases h a (List.mem_cons_self _ _) with ha | ha <;> subst ha <;>
      simp [ffillGo, ih ht, List.replicate_succ]

lemma ffillGo_none_struct {c : ℚ} (l : List (Option ℚ))
    (h : ∀ x ∈ l, x = some c ∨ x = none) :
    ∃ k, k ≤ l.length ∧
      ffillGo none l
        = List.replicate k none ++ List.replicate (l.length - k) (some c) ∧
      (some c ∈ l → k < l.length) := by
  induction l with
  | nil => exact ⟨0, by simp [ffillGo]⟩
  | cons a t ih =>
    have ht := fun x hx => h x (List.mem_cons_of_mem _ hx)
    rcases h a (List.mem_cons_self _ _) with ha | ha <;> subst ha
    · refine ⟨0, Nat.zero_le _, ?_, fun _ => Nat.succ_pos _⟩
      simp [ffillGo, ffillGo_all_some t ht, List.replicate_succ]
    · obtain ⟨k, hk1, hk2, hk3⟩ := ih ht
      refine ⟨k + 1, Nat.succ_le_succ hk1, ?_, ?_⟩
      · have harith : (none :: t).length - (k + 1) = t.length - k := by
          simp only [List.length_cons]
          omega
        rw [harith]
        show none :: ffillGo none t = _
        rw [hk2, List.replicate_succ, List.cons_append]
      · intro hmem
        rcases List.mem_cons.mp hmem with hbad | hmem2
        · exact absurd hbad.symm (by simp)
        · exact Nat.succ_lt_succ (hk3 hmem2)

lemma fillEnds_mixed {c : ℚ} (l : List (Option ℚ))
    (hmix : ∀ x ∈ l, x = some c ∨ x = none) (hex : some c ∈ l) :
    fillEnds l = List.replicate l.length c := by
  have hmixr : ∀ x ∈ l.reverse, x = some c ∨ x = none := by
    intro x hx
    exact hmix x (List.mem_reverse.mp hx)
  obtain ⟨k, hk1, hk2, hk3⟩ := ffillGo_none_struct l.reverse hmixr
  have hkl : k < l.length := by
    have := hk3 (List.mem_reverse.mpr hex)
    simpa using this
  obtain ⟨m, hm⟩ : ∃ m, l.length - k = m + 1 := ⟨l.length - k - 1, by omega⟩
  unfold fillEnds ffill bfill
  rw [hk2, List.reverse_append, List.reverse_replicate, List.reverse_replicate,
    List.length_reverse, hm, List.replicate_succ, List.cons_append]
  show ((some c :: ffillGo (some c)
      (List.replicate m (some c) ++ List.replicate k none)).map fun o => o.getD 0)
    = List.replicate l.length c
  rw [ffillGo_all_some (List.replicate m (some c) ++ List.replicate k none) ?hmx]
  case hmx =>
    intro x hx
    rcases List.mem_append.mp hx with hx | hx
    · exact Or.inl (List.eq_of_mem_replicate hx)
    · exact Or.inr (List.eq_of_mem_replicate hx)
  simp only [List.length_append, List.length_replicate, List.map_cons,
    List.map_replicate, Option.getD_some]
  rw [← List.replicate_succ]
  congr 1
  omega

lemma rollingMeanC_replicate_mean (w n : ℕ) (c : ℚ) (hw : 0 < w) (i : ℕ)
    (h1 : (w - 1) / 2 ≤ i) (h2 : i + w / 2 < n) :
    npMean (((List.replicate n c).drop (i - (w - 1) / 2)).take w) = c := by
  have hdiv : (w - 1) / 2 + w / 2 = w - 1 := by omega
  rw [List.drop_replicate, List.take_replicate]
  have hmin : min w (n - (i - (w - 1) / 2)) = w := by omega
  rw [hmin]
  exact npMean_replicate w hw c

lemma smoothedSeries_replicate (w n : ℕ) (c : ℚ) (hw : 0 < w) (hwn : w ≤ n) :
    smoothedSeries w (List.replicate n c) = List.replicate n c := by
  have hmix : ∀ x ∈ rollingMeanC w (List.replicate n c), x = some c ∨ x = none := by
    intro x hx
    obtain ⟨i, _, hxe⟩ := List.mem_map.mp hx
    by_cases hP : (w - 1) / 2 ≤ i ∧ i + w / 2 < (List.replicate n c).length
    · left
      rw [← hxe, if_pos hP]
      rw [rollingMeanC_replicate_mean w n c hw i hP.1 (by
        simpa using hP.2)]
    · right
      rw [← hxe, if_neg hP]
  have hex : some c ∈ rollingMeanC w (List.replicate n c) := by
    have hdiv : (w - 1) / 2 + w / 2 = w - 1 := by omega
    have hP : (w - 1) / 2 ≤ (w - 1) / 2 ∧
        (w - 1) / 2 + w / 2 < (List.replicate n c).length := by
      simp only [List.length_replicate]
      omega
    refine List.mem_map.mpr ⟨(w - 1) / 2, List.mem_range.mpr ?_, ?_⟩
    · simp only [List.length_replicate]
      omega
    · rw [if_pos hP,
        rollingMeanC_replicate_mean w n c hw _ hP.1 (by simpa using hP.2)]
  rw [smoothedSeries, fillEnds_mixed _ hmix hex]
  simp [rollingMeanC]

lemma npDiff_replicate_zero {n : ℕ} {c d : ℚ} (hd : d ∈ npDiff (List.replicate n c)) :
    d = 0 := by
  unfold npDiff at hd
  obtain ⟨p, hp, hpe⟩ := List.mem_map.mp hd
  have h1 := List.of_mem_zip hp
  have hc1 : p.1 = c := List.eq_of_mem_replicate h1.1
  have hc2 : p.2 = c := by
    apply List.eq_of_mem_replicate (n := n - 1)
    rw [← List.tail_replicate]
    exact h1.2
  rw [← hpe, hc1, hc2]
  ring

lemma calculate_monotonicity_short (power : List ℚ) (w : ℕ)
    (h : power.length < w) : calculate_monotonicity power w = 0 := by
  rw [calculate_monotonicity, if_pos h]

lemma calculate_monotonicity_flat (power : List ℚ) (w : ℕ)
    (h : w ≤ power.length)
    (hz : ((npDiff (smoothedSeries w power)).filter fun d => 1 < |d|) = []) :
    calculate_monotonicity power w = 1 := by
  rw [calculate_monotonicity, if_neg (not_lt.mpr h)]
  simp only [hz, List.length_nil, if_pos]

lemma calculate_monotonicity_ratio (power : List ℚ) (w : ℕ)
    (h : w ≤ power.length)
    (hz : ((npDiff (smoothedSeries w power)).filter fun d => 1 < |d|) ≠ []) :
    calculate_monotonicity power w =
      ((((npDiff (smoothedSeries w power)).filter fun d => 1 < |d| ∧ 0 < d).length : ℚ) /
        (((npDiff (smoothedSeries w power)).filter fun d => 1 < |d|).length : ℚ)) := by
  rw [calculate_monotonicity, if_neg (not_lt.mpr h)]
  have hlen : ((npDiff (smoothedSeries w power)).filter fun d => 1 < |d|).length ≠ 0 := by
    simpa [List.length_eq_zero] using hz
  simp [hlen]

/-- C3 counterexample: a power series shorter than the smoothing window
has no significant transitions, yet the scorer returns `0.0`, not the
claimed `1.0`. -/
theorem monotonicity_counterexample :
    (List.replicate 5 (100 : ℚ)).length < 30 ∧
    calculate_monotonicity (List.replicate 5 (100 : ℚ)) 30 = 0 ∧
    calculate_monotonicity (List.replicate 5 (100 : ℚ)) 30 ≠ 1 := by
  refine ⟨by norm_num, ?_, ?_⟩
  · exact calculate_monotonicity_short _ 30 (by norm_num)
  · rw [calculate_monotonicity_short _ 30 (by norm_num)]
    norm_num

/-- C3 amended: a power series shorter than the smoothing window returns
`0.0`; for a series at least as long as the window with zero significant
smoothed transitions (in particular any constant series) the scorer
returns exactly `1.0`; otherwise it returns
(positive significant differences)/(significant differences); and the
monotonicity criterion passes iff the score is at least 0.70. -/
theorem monotonicity_spec :
    (∀ (power : List ℚ) (w : ℕ), power.length < w →
      calculate_monotonicity power w = 0) ∧
    (∀ (power : List ℚ) (w : ℕ), w ≤ power.length →
      ((npDiff (smoothedSeries w power)).filter fun d => 1 < |d|) = [] →
      calculate_monotonicity power w = 1) ∧
    (∀ (power : List ℚ) (w : ℕ), w ≤ power.length →
      ((npDiff (smoothedSeries w power)).filter fun d => 1 < |d|) ≠ [] →
      calculate_monotonicity power w =
        ((((npDiff (smoothedSeries w power)).filter fun d => 1 < |d| ∧ 0 < d).length : ℚ) /
          (((npDiff (smoothedSeries w power)).filter fun d => 1 < |d|).length : ℚ))) ∧
    (∀ (n : ℕ) (c : ℚ), 30 ≤ n →
      calculate_monotonicity (List.replicate n c) 30 = 1) ∧
    (∀ (df : DF) (pc tc : String) (cc : Option String),
      hasCol (normalizeDF df) (pyLower pc) = true →
      ((validate_ramp_test df pc tc cc).criteria .monotonicity = true ↔
        (VALIDATION_CRITERIA .monotonicity).min
          ≤ calculate_monotonicity (getCol (normalizeDF df) (pyLower pc)))) := by
  refine ⟨calculate_monotonicity_short, calculate_monotonicity_flat,
    calculate_monotonicity_ratio, ?_, ?_⟩
  · intro n c hn
    apply calculate_monotonicity_flat _ 30 (by simpa using hn)
    rw [smoothedSeries_replicate 30 n c (by norm_num) (by simpa using hn)]
    rw [List.filter_eq_nil_iff]
    intro d hd
    rw [npDiff_replicate_zero hd]
    norm_num
  · intro df pc tc cc hp
    have hpp : ppOf (normalizeDF df) (pyLower pc)
        = powerPart (getCol (normalizeDF df) (pyLower pc)) := by
      simp [ppOf, hp]
    have h1 : (validate_ramp_test df pc tc cc).criteria .monotonicity
        = (ppOf (normalizeDF df) (pyLower pc)).mono_ok := by
      rw [validate_criteria_eq]
    rw [h1, hpp, powerPart_mono_ok, decide_eq_true_iff]

/-- C3 witness: a constant 40-sample series at the default window. -/
theorem monotonicity_witness :
    30 ≤ 40 ∧ calculate_monotonicity (List.replicate 40 (7 : ℚ)) 30 = 1 :=
  ⟨by norm_num, monotonicity_spec.2.2.2.1 40 7 (by norm_num)⟩

/-! ### C7 / C10: step segmentation invariants -/

lemma ffillGo_length (carry : Option ℚ) (l : List (Option ℚ)) :
    (ffillGo carry l).length = l.length := by
  induction l generalizing carry with
  | nil => rfl
  | cons a t ih =>
    cases a <;> simp [ffillGo, ih]

lemma smoothedSeries_length (w : ℕ) (l : List ℚ) :
    (smoothedSeries w l).length = l.length := by
  simp [smoothedSeries, fillEnds, ffill, bfill, ffillGo_length, rollingMeanC]

lemma npGradient_length (l : List ℚ) : (npGradient l).length = l.length := by
  match l with
  | [] => rfl
  | [_] => rfl
  | a :: b :: t => simp [npGradient]

lemma scanGo_inv (minStep : ℕ) (rest : List ℚ) :
    ∀ (i : ℕ) (inT : Bool) (ss : List ℕ), ss ≠ [] →
    (∀ x ∈ ss, x < i) →
    List.Chain' (fun a b => b < a ∧ b + minStep ≤ a) ss →
    (scanGo minStep rest i inT ss ≠ [] ∧
      (∀ x ∈ scanGo minStep rest i inT ss, x < i + rest.length) ∧
      List.Chain' (fun a b => b < a ∧ b + minStep ≤ a) (scanGo minStep rest i inT ss) ∧
      (scanGo minStep rest i inT ss).getLast? = ss.getLast?) := by
  induction rest with
  | nil =>
    intro i inT ss hne hbnd hch
    exact ⟨hne, by simpa using hbnd, hch, rfl⟩
  | cons g rest ih =>
    intro i inT ss hne hbnd hch
    have hbnd1 : ∀ x ∈ ss, x < i + 1 := fun x hx => Nat.lt_succ_of_lt (hbnd x hx)
    simp only [scanGo]
    split_ifs with hg hT hA
    · obtain ⟨h1, h2, h3, h4⟩ := ih (i + 1) true ss hne hbnd1 hch
      exact ⟨h1, by simpa [Nat.add_assoc, Nat.add_comm, Nat.add_left_comm] using h2, h3, h4⟩
    · -- exit transition, boundary registered
      obtain ⟨a, t, rfl⟩ : ∃ a t, ss = a :: t := by
        cases ss with
        | nil => exact absurd rfl hne
        | cons a t => exact ⟨a, t, rfl⟩
      have ha : a < i := hbnd a (List.mem_cons_self _ _)
      have haA : a + minStep ≤ i := by
        have : minStep ≤ i - (a :: t).headD 0 := hA
        simp only [List.headD_cons] at this
        omega
      have hch2 : List.Chain' (fun a b => b < a ∧ b + minStep ≤ a) (i :: a :: t) :=
        List.chain'_cons.mpr ⟨⟨ha, haA⟩, hch⟩
      have hbnd2 : ∀ x ∈ i :: a :: t, x < i + 1 := by
        intro x hx
        rcases List.mem_cons.mp hx with rfl | hx
        · omega
        · exact hbnd1 x hx
      obtain ⟨h1, h2, h3, h4⟩ := ih (i + 1) false (i :: a :: t) (by simp) hbnd2 hch2
      refine ⟨h1, by simpa [Nat.add_assoc, Nat.add_comm, Nat.add_left_comm] using h2, h3, ?_⟩
      rw [h4, List.getLast?_cons_cons]
    · obtain ⟨h1, h2, h3, h4⟩ := ih (i + 1) false ss hne hbnd1 hch
      exact ⟨h1, by simpa [Nat.add_assoc, Nat.add_comm, Nat.add_left_comm] using h2, h3, h4⟩
    · obtain ⟨h1, h2, h3, h4⟩ := ih (i + 1) false ss hne hbnd1 hch
      exact ⟨h1, by simpa [Nat.add_assoc, Nat.add_comm, Nat.add_left_comm] using h2, h3, h4⟩

lemma stepStarts_inv (minStep : ℕ) (grad : List ℚ) (hg : 1 ≤ grad.length) :
    ((scanGo minStep (grad.drop 1) 1 false [0]).reverse).head? = some 0 ∧
    List.Chain' (fun a b => a < b ∧ a + minStep ≤ b)
      ((scanGo minStep (grad.drop 1) 1 false [0]).reverse) ∧
    (∀ x ∈ (scanGo minStep (grad.drop 1) 1 false [0]).reverse, x < grad.length) ∧
    (scanGo minStep (grad.drop 1) 1 false [0]).reverse ≠ [] := by
  obtain ⟨h1, h2, h3, h4⟩ := scanGo_inv minStep (grad.drop 1) 1 false [0]
    (by simp) (by simp) (by simp)
  refine ⟨?_, ?_, ?_, by simpa using h1⟩
  · rw [List.head?_reverse, h4]
    rfl
  · rw [List.chain'_reverse]
    exact h3
  · intro x hx
    have := h2 x (List.mem_reverse.mp hx)
    have hlen : (grad.drop 1).length = grad.length - 1 := List.length_drop 1 grad
    omega

lemma buildSteps_inv (power : List ℚ) (minStep : ℕ) :
    ∀ (rest : List ℕ) (s0 : ℕ),
    List.Chain' (fun a b => a < b ∧ a + minStep ≤ b) (s0 :: rest) →
    (∀ x ∈ s0 :: rest, x < power.length) →
    ((∀ st ∈ buildSteps power minStep (s0 :: rest),
        st.start < st.stop ∧ st.stop ≤ power.length ∧
        st.duration = st.stop - st.start ∧ minStep ≤ st.duration) ∧
      List.Chain' (fun a b => a.stop = b.start) (buildSteps power minStep (s0 :: rest)) ∧
      List.Chain' (fun a b => a.start < b.start) (buildSteps power minStep (s0 :: rest)) ∧
      (∀ st, (buildSteps power minStep (s0 :: rest)).head? = some st → st.start = s0)) := by
  intro rest
  induction rest with
  | nil =>
    intro s0 hch hbnd
    have hs0 : s0 < power.length := hbnd s0 (List.mem_cons_self _ _)
    simp only [buildSteps, List.tail_cons, List.nil_append, List.zip_cons_cons,
      List.zip_nil_left, List.zip_nil_right, List.filterMap_cons, List.filterMap_nil]
    split_ifs with hkeep
    · refine ⟨?_, ?_, ?_, ?_⟩
      · intro st hst
        rw [List.mem_singleton] at hst
        subst hst
        exact ⟨hs0, le_refl _, rfl, hkeep⟩
      · simp
      · simp
      · intro st hst
        simp only [List.head?_cons, Option.some.injEq] at hst
        rw [← hst]
    · exact ⟨by simp, by simp, by simp, by simp⟩
  | cons r1 rest ih =>
    intro s0 hch hbnd
    obtain ⟨⟨hlt, hgap⟩, hch'⟩ := List.chain'_cons.mp hch
    have hbnd' : ∀ x ∈ r1 :: rest, x < power.length :=
      fun x hx => hbnd x (List.mem_cons_of_mem _ hx)
    obtain ⟨ih1, ih2, ih3, ih4⟩ := ih r1 hch' hbnd'
    have hkeep : minStep ≤ r1 - s0 := by omega
    have hexp : buildSteps power minStep (s0 :: r1 :: rest)
        = ⟨s0, r1, r1 - s0, npMean (listSlice power s0 r1)⟩ ::
          buildSteps power minStep (r1 :: rest) := by
      simp only [buildSteps, List.tail_cons, List.cons_append, List.zip_cons_cons,
        List.filterMap_cons]
      rw [if_pos hkeep]
    rw [hexp]
    refine ⟨?_, ?_, ?_, ?_⟩
    · intro st hst
      rcases List.mem_cons.mp hst with rfl | hst
      · exact ⟨hlt, le_of_lt (hbnd r1 (by simp)), rfl, hkeep⟩
      · exact ih1 st hst
    · refine List.chain'_cons'.mpr ⟨?_, ih2⟩
      intro st hst
      have := ih4 st hst
      simp [this]
    · refine List.chain'_cons'.mpr ⟨?_, ih3⟩
      intro st hst
      have := ih4 st hst
      simp [this, hlt]
    · intro st hst
      simp only [List.head?_cons, Option.some.injEq] at hst
      rw [← hst]

lemma detect_inv (power : List ℚ) (m : ℕ) (hm : 0 < m) (hlen : m ≤ power.length) :
    (∀ st ∈ detect_power_steps power m,
        st.start < st.stop ∧ st.stop ≤ power.length ∧
        st.duration = st.stop - st.start ∧ m ≤ st.duration) ∧
    List.Chain' (fun a b => a.stop = b.start) (detect_power_steps power m) ∧
    List.Chain' (fun a b => a.start < b.start) (detect_power_steps power m) ∧
    (∀ st, (detect_power_steps power m).head? = some st → st.start = 0) := by
  have hn1 : 1 ≤ power.length := le_trans hm hlen
  rw [detect_power_steps, if_neg (not_lt.mpr hlen)]
  dsimp only
  set w0 := min 30 (power.length / 10) with hw0
  set window := if w0 < 5 then 5 else w0 with hwdef
  set grad := npGradient (smoothedSeries window power) with hgrad
  have hglen : grad.length = power.length := by
    rw [hgrad, npGradient_length, smoothedSeries_length]
  obtain ⟨hh, hchain, hbound, hnn⟩ := stepStarts_inv m grad (by omega)
  set starts := (scanGo m (grad.drop 1) 1 false [0]).reverse with hst
  obtain ⟨s0, rest, hcons⟩ : ∃ s0 rest, starts = s0 :: rest := by
    cases hx : starts with
    | nil => exact absurd hx hnn
    | cons a t => exact ⟨a, t, rfl⟩
  have hs0 : s0 = 0 := by
    rw [hcons] at hh
    simpa using hh
  rw [hcons]
  have hch : List.Chain' (fun a b => a < b ∧ a + m ≤ b) (s0 :: rest) := by
    rw [← hcons]
    exact hchain
  have hbnd : ∀ x ∈ s0 :: rest, x < power.length := by
    intro x hx
    rw [← hglen]
    apply hbound
    rw [hcons]
    exact hx
  obtain ⟨b1, b2, b3, b4⟩ := buildSteps_inv power m rest s0 hch hbnd
  exact ⟨b1, b2, b3, fun st hst => hs0 ▸ b4 st hst⟩

/-- C7: for every power array shorter than `min_step_duration` (default
30) the segmenter returns an empty step list rather than an error; every
returned step satisfies `start < stop`, `duration = stop − start` and
`duration ≥ min_step_duration`; and the list is ordered by start index. -/
theorem detect_power_steps_spec (power : List ℚ) (m : ℕ) (hm : 0 < m) :
    (power.length < m → detect_power_steps power m = []) ∧
    (∀ s ∈ detect_power_steps power m,
      s.start < s.stop ∧ s.duration = s.stop - s.start ∧ m ≤ s.duration) ∧
    List.Chain' (fun a b => a.start < b.start) (detect_power_steps power m) := by
  by_cases hlen : power.length < m
  · rw [detect_power_steps, if_pos hlen]
    exact ⟨fun _ => rfl, by simp, by simp⟩
  · obtain ⟨h1, _, h3, _⟩ := detect_inv power m hm (not_lt.mp hlen)
    exact ⟨fun h => absurd h hlen,
      fun s hs => ⟨(h1 s hs).1, (h1 s hs).2.2.1, (h1 s hs).2.2.2⟩, h3⟩

/-- C7 witness: a series shorter than the default step duration yields an
empty list; a 30-sample series yields only well-formed steps. -/
theorem detect_power_steps_witness :
    ((List.replicate 5 (100 : ℚ)).length < 30 ∧
      detect_power_steps (List.replicate 5 (100 : ℚ)) 30 = []) ∧
    (0 < 30 ∧ ∀ s ∈ detect_power_steps (List.replicate 30 (100 : ℚ)) 30,
      s.start < s.stop ∧ s.duration = s.stop - s.start ∧ 30 ≤ s.duration) :=
  ⟨⟨by norm_num,
      (detect_power_steps_spec (List.replicate 5 (100 : ℚ)) 30 (by norm_num)).1
        (by norm_num)⟩,
    ⟨by norm_num,
      (detect_power_steps_spec (List.replicate 30 (100 : ℚ)) 30 (by norm_num)).2.1⟩⟩

/-- C10: for every power array of length at least `min_step_duration`, the
returned step list is contiguous — the first step (when the list is
non-empty) starts at index 0, and each step's end index equals the next
step's start index. -/
theorem detect_power_steps_contiguous (power : List ℚ) (m : ℕ) (hm : 0 < m)
    (hlen : m ≤ power.length) :
    (∀ s, (detect_power_steps power m).head? = some s → s.start = 0) ∧
    List.Chain' (fun a b => a.stop = b.start) (detect_power_steps power m) := by
  obtain ⟨_, h2, _, h4⟩ := detect_inv power m hm hlen
  exact ⟨h4, h2⟩

/-- C10 witness: the 30-sample constant series at the default minimum step
duration. -/
theorem detect_power_steps_contiguous_witness :
    (0 < 30 ∧ 30 ≤ (List.replicate 30 (100 : ℚ)).length) ∧
    List.Chain' (fun a b => a.stop = b.start)
      (detect_power_steps (List.replicate 30 (100 : ℚ)) 30) :=
  ⟨⟨by norm_num, by norm_num⟩,
    (detect_power_steps_contiguous (List.replicate 30 (100 : ℚ)) 30 (by norm_num)
      (by norm_num)).2⟩

example : npGradient [1, 3, 7] = [2, 3, 4] := by
  norm_num [npGradient, List.range_succ]
example : smoothedSeries 3 [0, 3, 6, 9] = [3, 3, 6, 6] := by
  norm_num [smoothedSeries, rollingMeanC, fillEnds, ffill, bfill, ffillGo,
    npMean, List.range_succ]
example : ratTrunc (-5 / 2) = -2 ∧ ratTrunc (5 / 2) = 2 := by
  constructor <;> norm_num [ratTrunc]
example : pyRound1 (1 / 4) = 2 / 10 ∧ pyRound1 (7 / 20) = 4 / 10 := by
  constructor <;> norm_num [pyRound1, roundHalfEven]
